import Mathlib

/-!
# Verification of the composite material analysis core (streamlit_app.py)

Shallow embedding of the core logic of `src/streamlit_app.py`:
the materials database (`st.session_state.materials_db`, two Python dicts),
the add-fiber / add-matrix button handlers (lines 77-87 and 109-119),
the volume-fraction sum check (`np.isclose(total, 1.0, atol=0.01)`,
lines 180-183), and the "Calculate Composite Properties" button handler
(lines 185-225), which runs the generalized rule-of-mixtures accumulation
loops and stores the result in `st.session_state.composite_definitions`.

Python floats are modelled as rationals (`ℚ`).  Python dicts are modelled
as association lists in insertion order (Python 3.7+ dicts preserve
insertion order; inserting an existing key overwrites in place).  A Python
runtime exception (`ZeroDivisionError` from float division by `0.0`,
`KeyError` from a missing dict key) is modelled as an explicit `Fault`
value returned through `Except`, so that "the code raises" is a
distinguishable outcome of the embedded function.
-/

set_option autoImplicit false

namespace CompositeApp

/-- A constituent property record, as stored in `materials_db['fibers']`
or `materials_db['matrices']`: keys `'E'`, `'nu'`, `'G'`, `'density'`
(source lines 79-84 and 111-116). -/
structure ConstituentProps where
  E : ℚ
  nu : ℚ
  G : ℚ
  density : ℚ
  deriving DecidableEq

/-- Lookup in a Python dict modelled as an association list: the first
entry with the given key. -/
def dictLookup {α : Type} (n : String) : List (String × α) → Option α
  | [] => none
  | (k, v) :: rest => if k = n then some v else dictLookup n rest

/-- Insertion into a Python dict: `d[k] = v` overwrites an existing key in
place (keeping its position) and otherwise appends at the end. -/
def dictInsert {α : Type} (n : String) (v : α) : List (String × α) → List (String × α)
  | [] => [(n, v)]
  | (k, w) :: rest => if k = n then (n, v) :: rest else (k, w) :: dictInsert n v rest

/-- The keys of an association list are pairwise distinct — the invariant
every Python dict satisfies. -/
def keysNodup {α : Type} (l : List (String × α)) : Prop :=
  (l.map Prod.fst).Nodup

/-- `st.session_state.materials_db`: the dict with the `'fibers'` and
`'matrices'` sub-dicts (source lines 46-50). -/
structure MaterialsDb where
  fibers : List (String × ConstituentProps)
  matrices : List (String × ConstituentProps)
  deriving DecidableEq

/-- Outcome of the add-fiber / add-matrix handlers: `st.success(...)` on
a non-empty name, `st.error("Please enter a ... name")` otherwise. -/
inductive AddOutcome where
  | added
  | emptyNameError
  deriving DecidableEq

/-- The "Add Fiber" button handler (source lines 77-87): a non-empty name
(Python string truthiness) inserts/overwrites the record in the fiber
dict; an empty name reports an error and mutates nothing. -/
def addFiber (name : String) (props : ConstituentProps) (db : MaterialsDb) :
    AddOutcome × MaterialsDb :=
  if name ≠ "" then
    (.added, { db with fibers := dictInsert name props db.fibers })
  else
    (.emptyNameError, db)

/-- The "Add Matrix" button handler (source lines 109-119), identical to
`addFiber` over the matrix dict. -/
def addMatrix (name : String) (props : ConstituentProps) (db : MaterialsDb) :
    AddOutcome × MaterialsDb :=
  if name ≠ "" then
    (.added, { db with matrices := dictInsert name props db.matrices })
  else
    (.emptyNameError, db)

/-- A fault raised (or, per the spec's taxonomy, returned) during the
composite computation.  `keyError` and `zeroDivision` model the Python
exceptions `KeyError` (missing dict key, line 195/204) and
`ZeroDivisionError` (float division by zero, lines 197-198, 206-207,
211-213).  `unknownConstituent` and `degenerateInput` are the typed
errors named by the spec's §7 taxonomy; the source never produces
either — they are included so that claims about them are statable. -/
inductive Fault where
  | keyError (name : String)
  | zeroDivision
  | unknownConstituent (name : String)
  | degenerateInput
  deriving DecidableEq

/-- Decidable equality of computation results, so that concrete runs of
the embedded code can be checked by `decide`. -/
instance exceptDecEq {ε α : Type} [DecidableEq ε] [DecidableEq α] :
    DecidableEq (Except ε α) := fun a b =>
  match a, b with
  | .error e, .error e' =>
    if h : e = e' then .isTrue (by rw [h]) else .isFalse (by simp [h])
  | .error _, .ok _ => .isFalse (by simp)
  | .ok _, .error _ => .isFalse (by simp)
  | .ok v, .ok v' =>
    if h : v = v' then .isTrue (by rw [h]) else .isFalse (by simp [h])

/-- The five running accumulators of the computation loops
(source lines 187-191), all initialized to `0.0`. -/
structure Acc where
  E1 : ℚ
  E2den : ℚ
  G12den : ℚ
  nu12 : ℚ
  density : ℚ
  deriving DecidableEq

/-- One iteration of a contribution loop (source lines 194-200 or
203-209): look the name up in the dict (a missing key is a `KeyError`),
then add `E·vf`, `vf/E`, `vf/G`, `ν·vf`, `ρ·vf` to the accumulators.
In Python, `vf / E` with `E == 0.0` raises `ZeroDivisionError`; the UI
enforces `E ≥ 0.1` and `G ≥ 0.1`, but the fault is modelled so the
function is faithful on all inputs. -/
def contribStep (reg : List (String × ConstituentProps)) (a : Acc) (s : String × ℚ) :
    Except Fault Acc :=
  match dictLookup s.1 reg with
  | none => .error (.keyError s.1)
  | some p =>
    if p.E = 0 then .error .zeroDivision
    else if p.G = 0 then .error .zeroDivision
    else .ok
      { E1 := a.E1 + p.E * s.2
        E2den := a.E2den + s.2 / p.E
        G12den := a.G12den + s.2 / p.G
        nu12 := a.nu12 + p.nu * s.2
        density := a.density + p.density * s.2 }

/-- A whole contribution loop: fold `contribStep` over the selection
entries in order, stopping at the first fault. -/
def contribAll (reg : List (String × ConstituentProps)) (a : Acc) :
    List (String × ℚ) → Except Fault Acc
  | [] => .ok a
  | s :: rest =>
    match contribStep reg a s with
    | .error f => .error f
    | .ok a₂ => contribAll reg a₂ rest

/-- The stored composite record (source lines 216-225). -/
structure CompositeMaterial where
  E1 : ℚ
  E2 : ℚ
  G12 : ℚ
  nu12 : ℚ
  nu21 : ℚ
  density : ℚ
  fiber_constituents : List (String × ℚ)
  matrix_constituents : List (String × ℚ)
  deriving DecidableEq

/-- The composite computation (source lines 187-224): the fiber loop, the
matrix loop, then `E2 = 1 / E2_denominator`, `G12 = 1 / G12_denominator`,
`nu21 = nu12 * E2 / E1` — each Python float division raising
`ZeroDivisionError` when its denominator is `0.0`, in that order. -/
def computeComposite (db : MaterialsDb) (fsels msels : List (String × ℚ)) :
    Except Fault CompositeMaterial :=
  match contribAll db.fibers ⟨0, 0, 0, 0, 0⟩ fsels with
  | .error f => .error f
  | .ok a₁ =>
    match contribAll db.matrices a₁ msels with
    | .error f => .error f
    | .ok a =>
      if a.E2den = 0 then .error .zeroDivision
      else if a.G12den = 0 then .error .zeroDivision
      else if a.E1 = 0 then .error .zeroDivision
      else .ok
        { E1 := a.E1
          E2 := 1 / a.E2den
          G12 := 1 / a.G12den
          nu12 := a.nu12
          nu21 := a.nu12 * (1 / a.E2den) / a.E1
          density := a.density
          fiber_constituents := fsels
          matrix_constituents := msels }

/-- `np.isclose(a, b, atol)` with NumPy's defaults:
`|a - b| <= atol + rtol * |b|` where the default `rtol` is `1e-05`. -/
def npIsClose (a b atol : ℚ) : Bool :=
  |a - b| ≤ atol + 1 / 100000 * |b|

/-- Sum of the values of a selection dict (the running totals of source
lines 154 and 175). -/
def sumVals (l : List (String × ℚ)) : ℚ :=
  (l.map Prod.snd).sum

/-- The volume-fraction sum check (source lines 180-183):
`np.isclose(total_fiber_vf + total_matrix_vf, 1.0, atol=0.01)`; on
failure the error message carries the actual total. -/
def vfError (fsels msels : List (String × ℚ)) : Option ℚ :=
  let total := sumVals fsels + sumVals msels
  if npIsClose total 1 (1 / 100) then none else some total

/-- Outcome of a click of "Calculate Composite Properties". -/
inductive ClickOutcome where
  | skipped
  | fault (f : Fault)
  | stored
  deriving DecidableEq

/-- The "Calculate Composite Properties" button handler (source lines
185-225): the branch runs only when there is no volume-fraction error and
the composite name is non-empty (`st.button(...) and not vf_error and
composite_name`); otherwise the click does nothing.  On success the
record is stored under the composite name, overwriting any prior
entry. -/
def calculateClick (name : String) (db : MaterialsDb) (fsels msels : List (String × ℚ))
    (store : List (String × CompositeMaterial)) :
    ClickOutcome × List (String × CompositeMaterial) :=
  if vfError fsels msels = none ∧ name ≠ "" then
    match computeComposite db fsels msels with
    | .error f => (.fault f, store)
    | .ok r => (.stored, dictInsert name r store)
  else
    (.skipped, store)

/-- The selection dicts are built by iterating the registry dicts in
order, one number-input per registered name (source lines 143-153 and
164-174): their key sequence equals the registry's key sequence. -/
def selectionsFrom (reg : List (String × ConstituentProps)) (vf : String → ℚ) :
    List (String × ℚ) :=
  reg.map (fun e => (e.1, vf e.1))

/-- `st.number_input(..., min_value=lo, max_value=hi)` never yields a
value outside `[lo, hi]`: entered values are clamped (source lines
145-152 and 166-173 use `min_value=0.0, max_value=1.0`). -/
def numberInputClamp (lo hi x : ℚ) : ℚ :=
  max lo (min x hi)

/-! ## Specification-side sums (spec §4.3)

These definitions follow the words of the spec's algorithm: every selected
fiber and matrix is a constituent with a volume fraction, and each output
is a sum over all constituents, fibers first then matrices, each in
registry insertion order.  They are compared against `computeComposite`
in the refinement theorems. -/

/-- The spec's constituent list: all selected fibers then all selected
matrices, each paired with its volume fraction, in registry order. -/
def specConstituents (db : MaterialsDb) (vf_f vf_m : String → ℚ) :
    List (ConstituentProps × ℚ) :=
  db.fibers.map (fun e => (e.2, vf_f e.1)) ++ db.matrices.map (fun e => (e.2, vf_m e.1))

/-- Spec §4.3: `E1 = Σᵢ (Eᵢ · Vᵢ)`. -/
def specE1 (cs : List (ConstituentProps × ℚ)) : ℚ :=
  (cs.map (fun c => c.1.E * c.2)).sum

/-- Spec §4.3: `inv_E2 = Σᵢ (Vᵢ / Eᵢ)`. -/
def specInvE2 (cs : List (ConstituentProps × ℚ)) : ℚ :=
  (cs.map (fun c => c.2 / c.1.E)).sum

/-- Spec §4.3: `inv_G12 = Σᵢ (Vᵢ / Gᵢ)`. -/
def specInvG12 (cs : List (ConstituentProps × ℚ)) : ℚ :=
  (cs.map (fun c => c.2 / c.1.G)).sum

/-- Spec §4.3: `nu12 = Σᵢ (νᵢ · Vᵢ)`. -/
def specNu12 (cs : List (ConstituentProps × ℚ)) : ℚ :=
  (cs.map (fun c => c.1.nu * c.2)).sum

/-- Spec §4.3: `density = Σᵢ (ρᵢ · Vᵢ)`. -/
def specDensity (cs : List (ConstituentProps × ℚ)) : ℚ :=
  (cs.map (fun c => c.1.density * c.2)).sum

/-! ## Concrete inputs

The spec's §8 scenario registry: fiber `"Carbon"` (E=230, ν=0.2, G=90,
ρ=1.8) and matrix `"Epoxy"` (E=3.5, ν=0.35, G=1.3, ρ=1.2). -/

/-- The Carbon/Epoxy registry of the spec's §8 scenario. -/
def dbCE : MaterialsDb :=
  { fibers := [("Carbon", ⟨230, 1 / 5, 90, 9 / 5⟩)]
    matrices := [("Epoxy", ⟨7 / 2, 7 / 20, 13 / 10, 6 / 5⟩)] }

/-- The record the code computes for the §8 scenario (Carbon at V=0.6,
Epoxy at V=0.4): E1 = 139.4, E2 = 8050/941 ≈ 8.5547, G12 = 1950/613 ≈
3.1811, nu12 = 0.26, nu21 = 10465/655877, density = 1.56. -/
def carbonEpoxyRecord : CompositeMaterial :=
  { E1 := 697 / 5
    E2 := 8050 / 941
    G12 := 1950 / 613
    nu12 := 13 / 50
    nu21 := 10465 / 655877
    density := 39 / 25
    fiber_constituents := [("Carbon", 3 / 5)]
    matrix_constituents := [("Epoxy", 2 / 5)] }

/-! ## Dictionary lemmas -/

theorem dictLookup_dictInsert_self {α : Type} (n : String) (v : α) (l : List (String × α)) :
    dictLookup n (dictInsert n v l) = some v := by
  induction l with
  | nil => simp [dictInsert, dictLookup]
  | cons e rest ih =>
    by_cases h : e.1 = n
    · simp [dictInsert, dictLookup, h]
    · simp [dictInsert, dictLookup, h, ih]

theorem dictLookup_dictInsert_ne {α : Type} {n n' : String} (v : α) (l : List (String × α))
    (h : n' ≠ n) : dictLookup n' (dictInsert n v l) = dictLookup n' l := by
  induction l with
  | nil =>
    simp only [dictInsert, dictLookup]
    rw [if_neg (Ne.symm h)]
  | cons e rest ih =>
    rcases e with ⟨k, w⟩
    simp only [dictInsert]
    by_cases hk : k = n
    · subst hk
      simp only [if_pos rfl, dictLookup]
      rw [if_neg (Ne.symm h), if_neg (Ne.symm h)]
    · simp only [if_neg hk, dictLookup]
      by_cases hk' : k = n'
      · rw [if_pos hk', if_pos hk']
      · rw [if_neg hk', if_neg hk', ih]

theorem mem_of_dictLookup {α : Type} {n : String} {l : List (String × α)} {p : α}
    (h : dictLookup n l = some p) : (n, p) ∈ l := by
  induction l with
  | nil => simp [dictLookup] at h
  | cons e rest ih =>
    rcases e with ⟨k, w⟩
    by_cases he : k = n
    · simp only [dictLookup, if_pos he] at h
      obtain rfl : w = p := by injection h
      subst he
      exact List.mem_cons_self _ _
    · simp only [dictLookup, if_neg he] at h
      exact List.mem_cons_of_mem _ (ih h)

theorem dictLookup_of_mem_nodup {α : Type} {l : List (String × α)} (hnd : keysNodup l)
    {n : String} {p : α} (hm : (n, p) ∈ l) : dictLookup n l = some p := by
  induction l with
  | nil => simp at hm
  | cons e rest ih =>
    rw [keysNodup, List.map_cons, List.nodup_cons] at hnd
    rcases List.mem_cons.1 hm with h | h
    · subst h
      simp [dictLookup]
    · have hne : e.1 ≠ n := by
        intro hc
        exact hnd.1 (hc ▸ List.mem_map_of_mem Prod.fst h)
      simp [dictLookup, hne]
      exact ih hnd.2 h

theorem dictLookup_isSome_of_mem_keys {α : Type} {l : List (String × α)} {n : String}
    (h : n ∈ l.map Prod.fst) : (dictLookup n l).isSome = true := by
  induction l with
  | nil => simp at h
  | cons e rest ih =>
    rcases e with ⟨k, w⟩
    rw [List.map_cons] at h
    by_cases he : k = n
    · simp [dictLookup, he]
    · rcases List.mem_cons.1 h with hc | hc
      · exact absurd hc.symm he
      · simp only [dictLookup, if_neg he]
        exact ih hc

/-! ## Resolving a selection against the registry -/

/-- The properties the code fetches for a selection entry: the registry
record under that name (an arbitrary default when absent — only used
under a hypothesis that the name is present). -/
def lkProps (reg : List (String × ConstituentProps)) (n : String) : ConstituentProps :=
  (dictLookup n reg).getD ⟨1, 0, 1, 0⟩

/-- A selection resolved against the registry: each entry paired with the
property record the code looks up for it. -/
def resolve (reg : List (String × ConstituentProps)) (sels : List (String × ℚ)) :
    List (ConstituentProps × ℚ) :=
  sels.map (fun s => (lkProps reg s.1, s.2))

/-- A contribution loop whose every entry resolves to a record with
nonzero `E` and `G` runs to completion and adds exactly the
specification's five sums to the accumulators. -/
theorem contribAll_ok (reg : List (String × ConstituentProps)) (sels : List (String × ℚ))
    (a : Acc)
    (h : ∀ s ∈ sels, (dictLookup s.1 reg).isSome = true ∧
      (lkProps reg s.1).E ≠ 0 ∧ (lkProps reg s.1).G ≠ 0) :
    contribAll reg a sels = .ok
      { E1 := a.E1 + specE1 (resolve reg sels)
        E2den := a.E2den + specInvE2 (resolve reg sels)
        G12den := a.G12den + specInvG12 (resolve reg sels)
        nu12 := a.nu12 + specNu12 (resolve reg sels)
        density := a.density + specDensity (resolve reg sels) } := by
  induction sels generalizing a with
  | nil =>
    simp [contribAll, resolve, specE1, specInvE2, specInvG12, specNu12, specDensity]
  | cons s rest ih =>
    obtain ⟨hs, hrest⟩ := List.forall_mem_cons.1 h
    obtain ⟨hsome, hE, hG⟩ := hs
    obtain ⟨p, hp⟩ := Option.isSome_iff_exists.1 hsome
    have hlk : lkProps reg s.1 = p := by rw [lkProps, hp]; rfl
    rw [hlk] at hE hG
    simp only [contribAll, contribStep, hp, if_neg hE, if_neg hG]
    rw [ih _ hrest]
    simp only [resolve, List.map_cons, specE1, specInvE2, specInvG12, specNu12, specDensity,
      List.sum_cons, hlk]
    congr 1
    simp only [Acc.mk.injEq]
    refine ⟨by ring, by ring, by ring, by ring, by ring⟩

/-- A contribution loop over a registry of nonzero-`E`, nonzero-`G`
records and a selection containing a name absent from the registry stops
at a `KeyError`. -/
theorem contribAll_keyError (reg : List (String × ConstituentProps))
    (sels : List (String × ℚ)) (a : Acc)
    (hEG : ∀ e ∈ reg, e.2.E ≠ 0 ∧ e.2.G ≠ 0)
    (hmiss : ∃ s ∈ sels, dictLookup s.1 reg = none) :
    ∃ m, contribAll reg a sels = .error (.keyError m) := by
  induction sels generalizing a with
  | nil => simp at hmiss
  | cons s rest ih =>
    cases hp : dictLookup s.1 reg with
    | none =>
      exact ⟨s.1, by simp [contribAll, contribStep, hp]⟩
    | some p =>
      have hpm : (s.1, p) ∈ reg := mem_of_dictLookup hp
      have hEGp := hEG _ hpm
      simp only [contribAll, contribStep, hp, if_neg hEGp.1, if_neg hEGp.2]
      apply ih
      rcases hmiss with ⟨s', hs', hnone⟩
      rcases List.mem_cons.1 hs' with rfl | hmem
      · rw [hp] at hnone
        exact absurd hnone (by simp)
      · exact ⟨s', hmem, hnone⟩

/-- Selections built by the UI from a well-formed registry always look up
to the registry record of their entry: every name is present and its
record keeps its nonzero moduli. -/
theorem selectionsFrom_sound (reg : List (String × ConstituentProps)) (vf : String → ℚ)
    (hN : keysNodup reg) (hEG : ∀ e ∈ reg, 0 < e.2.E ∧ 0 < e.2.G) :
    ∀ s ∈ selectionsFrom reg vf, (dictLookup s.1 reg).isSome = true ∧
      (lkProps reg s.1).E ≠ 0 ∧ (lkProps reg s.1).G ≠ 0 := by
  intro s hs
  rcases List.mem_map.1 hs with ⟨e, he, rfl⟩
  have hlook : dictLookup e.1 reg = some e.2 :=
    dictLookup_of_mem_nodup hN (by rwa [Prod.mk.eta])
  have hlk : lkProps reg e.1 = e.2 := by rw [lkProps, hlook]; rfl
  refine ⟨by simp [hlook], ?_, ?_⟩
  · rw [hlk]; exact ne_of_gt (hEG e he).1
  · rw [hlk]; exact ne_of_gt (hEG e he).2

/-- Against a well-formed registry, the UI's selection list resolves to
exactly the registry's records in registry order. -/
theorem resolve_selectionsFrom (reg : List (String × ConstituentProps)) (vf : String → ℚ)
    (hN : keysNodup reg) :
    resolve reg (selectionsFrom reg vf) = reg.map (fun e => (e.2, vf e.1)) := by
  rw [resolve, selectionsFrom, List.map_map]
  refine List.map_congr_left ?_
  intro e he
  have hlook : dictLookup e.1 reg = some e.2 :=
    dictLookup_of_mem_nodup hN (by rwa [Prod.mk.eta])
  simp [Function.comp, lkProps, hlook]

theorem specE1_append (l₁ l₂ : List (ConstituentProps × ℚ)) :
    specE1 (l₁ ++ l₂) = specE1 l₁ + specE1 l₂ := by
  simp [specE1]

theorem specInvE2_append (l₁ l₂ : List (ConstituentProps × ℚ)) :
    specInvE2 (l₁ ++ l₂) = specInvE2 l₁ + specInvE2 l₂ := by
  simp [specInvE2]

theorem specInvG12_append (l₁ l₂ : List (ConstituentProps × ℚ)) :
    specInvG12 (l₁ ++ l₂) = specInvG12 l₁ + specInvG12 l₂ := by
  simp [specInvG12]

theorem specNu12_append (l₁ l₂ : List (ConstituentProps × ℚ)) :
    specNu12 (l₁ ++ l₂) = specNu12 l₁ + specNu12 l₂ := by
  simp [specNu12]

theorem specDensity_append (l₁ l₂ : List (ConstituentProps × ℚ)) :
    specDensity (l₁ ++ l₂) = specDensity l₁ + specDensity l₂ := by
  simp [specDensity]

/-- The decomposition of the spec's constituent list into the resolved
fiber and matrix selections, for a well-formed registry. -/
theorem specConstituents_eq_resolve (db : MaterialsDb) (vf_f vf_m : String → ℚ)
    (hfN : keysNodup db.fibers) (hmN : keysNodup db.matrices) :
    specConstituents db vf_f vf_m =
      resolve db.fibers (selectionsFrom db.fibers vf_f) ++
        resolve db.matrices (selectionsFrom db.matrices vf_m) := by
  rw [resolve_selectionsFrom _ _ hfN, resolve_selectionsFrom _ _ hmN, specConstituents]

theorem mapsum_nonneg {β : Type} (l : List β) (f : β → ℚ) (h : ∀ x ∈ l, 0 ≤ f x) :
    0 ≤ (l.map f).sum := by
  refine List.sum_nonneg ?_
  intro x hx
  rcases List.mem_map.1 hx with ⟨b, hb, rfl⟩
  exact h b hb

theorem mapsum_pos {β : Type} (l : List β) (f : β → ℚ) (h : ∀ x ∈ l, 0 ≤ f x)
    {b : β} (hb : b ∈ l) (hfb : 0 < f b) : 0 < (l.map f).sum := by
  refine lt_of_lt_of_le hfb (List.single_le_sum ?_ _ (List.mem_map_of_mem f hb))
  intro x hx
  rcases List.mem_map.1 hx with ⟨c, hc, rfl⟩
  exact h c hc

theorem exists_pos_of_sum_pos (l : List ℚ) (hnn : ∀ x ∈ l, 0 ≤ x) (hs : 0 < l.sum) :
    ∃ x ∈ l, 0 < x := by
  by_contra hc
  push_neg at hc
  have : l.sum = 0 := List.sum_eq_zero fun x hx => le_antisymm (hc x hx) (hnn x hx)
  rw [this] at hs
  exact lt_irrefl 0 hs

/-- A selection whose every name is present in a registry of positive
moduli satisfies the side conditions of `contribAll_ok`. -/
theorem present_sound (reg : List (String × ConstituentProps)) (sels : List (String × ℚ))
    (hEG : ∀ e ∈ reg, 0 < e.2.E ∧ 0 < e.2.G)
    (hP : ∀ s ∈ sels, (dictLookup s.1 reg).isSome = true) :
    ∀ s ∈ sels, (dictLookup s.1 reg).isSome = true ∧
      (lkProps reg s.1).E ≠ 0 ∧ (lkProps reg s.1).G ≠ 0 := by
  intro s hs
  obtain ⟨p, hp⟩ := Option.isSome_iff_exists.1 (hP s hs)
  have hlk : lkProps reg s.1 = p := by rw [lkProps, hp]; rfl
  have hpm := hEG _ (mem_of_dictLookup hp)
  exact ⟨hP s hs, by rw [hlk]; exact ne_of_gt hpm.1, by rw [hlk]; exact ne_of_gt hpm.2⟩

/-- Against a registry of positive moduli, every resolved constituent of
a fully-present selection has positive `E` and `G`. -/
theorem resolve_props_pos (reg : List (String × ConstituentProps)) (sels : List (String × ℚ))
    (hEG : ∀ e ∈ reg, 0 < e.2.E ∧ 0 < e.2.G)
    (hP : ∀ s ∈ sels, (dictLookup s.1 reg).isSome = true) :
    ∀ c ∈ resolve reg sels, 0 < c.1.E ∧ 0 < c.1.G := by
  intro c hc
  rcases List.mem_map.1 hc with ⟨s, hs, rfl⟩
  obtain ⟨p, hp⟩ := Option.isSome_iff_exists.1 (hP s hs)
  have hlk : lkProps reg s.1 = p := by rw [lkProps, hp]; rfl
  have hpm := hEG _ (mem_of_dictLookup hp)
  rw [hlk]
  exact hpm

/-- The sum check accepts exactly the totals within `0.01 + 1e-5` of `1`
(the `1e-5` being `np.isclose`'s default relative tolerance). -/
theorem vfError_none_iff (fsels msels : List (String × ℚ)) :
    vfError fsels msels = none ↔
      |sumVals fsels + sumVals msels - 1| ≤ 1 / 100 + 1 / 100000 := by
  rw [vfError]
  constructor
  · intro h
    by_cases hb : npIsClose (sumVals fsels + sumVals msels) 1 (1 / 100) = true
    · have := (by simpa [npIsClose, abs_one] using hb :
        |sumVals fsels + sumVals msels - 1| ≤ 1 / 100 + 1 / 100000 * 1)
      linarith
    · rw [if_neg hb] at h
      exact absurd h (by simp)
  · intro h
    have hb : npIsClose (sumVals fsels + sumVals msels) 1 (1 / 100) = true := by
      simp only [npIsClose, abs_one, decide_eq_true_eq]
      linarith
    rw [if_pos hb]

/-- The sum check rejects exactly the totals farther than `0.01 + 1e-5`
from `1`, reporting the actual total. -/
theorem vfError_some_iff (fsels msels : List (String × ℚ)) (t : ℚ) :
    vfError fsels msels = some t ↔
      t = sumVals fsels + sumVals msels ∧
        1 / 100 + 1 / 100000 < |sumVals fsels + sumVals msels - 1| := by
  rw [vfError]
  by_cases hb : npIsClose (sumVals fsels + sumVals msels) 1 (1 / 100) = true
  · rw [if_pos hb]
    have := (by simpa [npIsClose, abs_one] using hb :
      |sumVals fsels + sumVals msels - 1| ≤ 1 / 100 + 1 / 100000 * 1)
    constructor
    · intro h
      exact absurd h (by simp)
    · intro h
      linarith [h.2]
  · rw [if_neg hb]
    have : ¬ |sumVals fsels + sumVals msels - 1| ≤ 1 / 100 + 1 / 100000 * 1 := by
      simpa [npIsClose, abs_one] using hb
    constructor
    · intro h
      have ht : t = sumVals fsels + sumVals msels := by
        injection h with h
        exact h.symm
      exact ⟨ht, by linarith [lt_of_not_le this]⟩
    · intro h
      rw [h.1]


/-- Over a fully-present, nonnegative selection the three stiffness sums
are nonnegative. -/
theorem side_nonneg (reg : List (String × ConstituentProps)) (sels : List (String × ℚ))
    (hEG : ∀ e ∈ reg, 0 < e.2.E ∧ 0 < e.2.G)
    (hP : ∀ s ∈ sels, (dictLookup s.1 reg).isSome = true)
    (hnn : ∀ s ∈ sels, 0 ≤ s.2) :
    0 ≤ specInvE2 (resolve reg sels) ∧ 0 ≤ specInvG12 (resolve reg sels) ∧
      0 ≤ specE1 (resolve reg sels) := by
  have hpos := resolve_props_pos reg sels hEG hP
  have hnn2 : ∀ c ∈ resolve reg sels, 0 ≤ c.2 := by
    intro c hc
    rcases List.mem_map.1 hc with ⟨s, hs, rfl⟩
    exact hnn s hs
  refine ⟨mapsum_nonneg _ _ ?_, mapsum_nonneg _ _ ?_, mapsum_nonneg _ _ ?_⟩
  · exact fun c hc => div_nonneg (hnn2 c hc) (le_of_lt (hpos c hc).1)
  · exact fun c hc => div_nonneg (hnn2 c hc) (le_of_lt (hpos c hc).2)
  · exact fun c hc => mul_nonneg (le_of_lt (hpos c hc).1) (hnn2 c hc)

/-- A fully-present, nonnegative selection containing a strictly positive
fraction makes the three stiffness sums strictly positive. -/
theorem side_pos (reg : List (String × ConstituentProps)) (sels : List (String × ℚ))
    (hEG : ∀ e ∈ reg, 0 < e.2.E ∧ 0 < e.2.G)
    (hP : ∀ s ∈ sels, (dictLookup s.1 reg).isSome = true)
    (hnn : ∀ s ∈ sels, 0 ≤ s.2)
    {s₀ : String × ℚ} (hs₀ : s₀ ∈ sels) (hf₀ : 0 < s₀.2) :
    0 < specInvE2 (resolve reg sels) ∧ 0 < specInvG12 (resolve reg sels) ∧
      0 < specE1 (resolve reg sels) := by
  have hpos := resolve_props_pos reg sels hEG hP
  have hnn2 : ∀ c ∈ resolve reg sels, 0 ≤ c.2 := by
    intro c hc
    rcases List.mem_map.1 hc with ⟨s, hs, rfl⟩
    exact hnn s hs
  have hc₀ : (lkProps reg s₀.1, s₀.2) ∈ resolve reg sels :=
    List.mem_map_of_mem _ hs₀
  have hc₀pos := hpos _ hc₀
  refine ⟨mapsum_pos _ _ ?_ hc₀ ?_, mapsum_pos _ _ ?_ hc₀ ?_, mapsum_pos _ _ ?_ hc₀ ?_⟩
  · exact fun c hc => div_nonneg (hnn2 c hc) (le_of_lt (hpos c hc).1)
  · exact div_pos hf₀ hc₀pos.1
  · exact fun c hc => div_nonneg (hnn2 c hc) (le_of_lt (hpos c hc).2)
  · exact div_pos hf₀ hc₀pos.2
  · exact fun c hc => mul_nonneg (le_of_lt (hpos c hc).1) (hnn2 c hc)
  · exact mul_pos hc₀pos.1 hf₀

/-- C4 (amended): no input that passes validation can reach a zero
denominator: for every registry whose constituents have `E > 0` and
`G > 0` and every pair of assignments with all names registered, all
fractions nonnegative, and the sum check satisfied, the accumulated
denominators `Σᵢ (Vᵢ/Eᵢ)` and `Σᵢ (Vᵢ/Gᵢ)` are strictly positive and the
computation succeeds — it never raises a division fault.  (On a raw input
whose denominator is `0` the computation raises `ZeroDivisionError`
rather than failing with `DegenerateInput`, which the code never
produces — see the counterexample.) -/
theorem validated_compute_ok (db : MaterialsDb) (fsels msels : List (String × ℚ))
    (hfEG : ∀ e ∈ db.fibers, 0 < e.2.E ∧ 0 < e.2.G)
    (hmEG : ∀ e ∈ db.matrices, 0 < e.2.E ∧ 0 < e.2.G)
    (hfP : ∀ s ∈ fsels, (dictLookup s.1 db.fibers).isSome = true)
    (hmP : ∀ s ∈ msels, (dictLookup s.1 db.matrices).isSome = true)
    (hfnn : ∀ s ∈ fsels, 0 ≤ s.2) (hmnn : ∀ s ∈ msels, 0 ≤ s.2)
    (hv : vfError fsels msels = none) :
    ∃ r, computeComposite db fsels msels = .ok r := by
  have hf := present_sound db.fibers fsels hfEG hfP
  have hm := present_sound db.matrices msels hmEG hmP
  have hfnonneg := side_nonneg db.fibers fsels hfEG hfP hfnn
  have hmnonneg := side_nonneg db.matrices msels hmEG hmP hmnn
  have htot := abs_le.1 ((vfError_none_iff fsels msels).1 hv)
  have htotpos : 0 < sumVals fsels + sumVals msels := by linarith [htot.1]
  have hsf : sumVals fsels = (fsels.map Prod.snd).sum := rfl
  have hsm : sumVals msels = (msels.map Prod.snd).sum := rfl
  have hside : 0 < (fsels.map Prod.snd).sum ∨ 0 < (msels.map Prod.snd).sum := by
    by_contra hcon
    push_neg at hcon
    rw [hsf, hsm] at htotpos
    linarith [hcon.1, hcon.2]
  have hkey : 0 < specInvE2 (resolve db.fibers fsels) + specInvE2 (resolve db.matrices msels) ∧
      0 < specInvG12 (resolve db.fibers fsels) + specInvG12 (resolve db.matrices msels) ∧
      0 < specE1 (resolve db.fibers fsels) + specE1 (resolve db.matrices msels) := by
    rcases hside with hpos | hpos
    · obtain ⟨v, hv₂, hvpos⟩ := exists_pos_of_sum_pos _ (fun x hx => by
        rcases List.mem_map.1 hx with ⟨s, hs, rfl⟩
        exact hfnn s hs) hpos
      obtain ⟨s₀, hs₀, rfl⟩ := List.mem_map.1 hv₂
      have := side_pos db.fibers fsels hfEG hfP hfnn hs₀ hvpos
      exact ⟨by linarith [this.1, hmnonneg.1], by linarith [this.2.1, hmnonneg.2.1],
        by linarith [this.2.2, hmnonneg.2.2]⟩
    · obtain ⟨v, hv₂, hvpos⟩ := exists_pos_of_sum_pos _ (fun x hx => by
        rcases List.mem_map.1 hx with ⟨s, hs, rfl⟩
        exact hmnn s hs) hpos
      obtain ⟨s₀, hs₀, rfl⟩ := List.mem_map.1 hv₂
      have := side_pos db.matrices msels hmEG hmP hmnn hs₀ hvpos
      exact ⟨by linarith [this.1, hfnonneg.1], by linarith [this.2.1, hfnonneg.2.1],
        by linarith [this.2.2, hfnonneg.2.2]⟩
  have hres : computeComposite db fsels msels = .ok
      { E1 := specE1 (resolve db.fibers fsels) + specE1 (resolve db.matrices msels)
        E2 := 1 / (specInvE2 (resolve db.fibers fsels) + specInvE2 (resolve db.matrices msels))
        G12 := 1 / (specInvG12 (resolve db.fibers fsels) + specInvG12 (resolve db.matrices msels))
        nu12 := specNu12 (resolve db.fibers fsels) + specNu12 (resolve db.matrices msels)
        nu21 := (specNu12 (resolve db.fibers fsels) + specNu12 (resolve db.matrices msels)) *
          (1 / (specInvE2 (resolve db.fibers fsels) + specInvE2 (resolve db.matrices msels))) /
          (specE1 (resolve db.fibers fsels) + specE1 (resolve db.matrices msels))
        density := specDensity (resolve db.fibers fsels) + specDensity (resolve db.matrices msels)
        fiber_constituents := fsels
        matrix_constituents := msels } := by
    unfold computeComposite
    simp only [contribAll_ok _ _ _ hf, contribAll_ok _ _ _ hm, zero_add]
    rw [if_neg (ne_of_gt hkey.1), if_neg (ne_of_gt hkey.2.1), if_neg (ne_of_gt hkey.2.2)]
  exact ⟨_, hres⟩

/-- The §8 scenario run of the computation, evaluated exactly. -/
theorem carbonEpoxy_run :
    computeComposite dbCE [("Carbon", 3 / 5)] [("Epoxy", 2 / 5)] = .ok carbonEpoxyRecord := by
  norm_num [computeComposite, contribAll, contribStep, dictLookup, dbCE, carbonEpoxyRecord]

/-- The all-zero-fractions run of the computation: the accumulated
`E2_denominator` is `0`, so `E2 = 1 / E2_denominator` raises. -/
theorem zero_fractions_run :
    computeComposite dbCE [("Carbon", 0)] [("Epoxy", 0)] = .error .zeroDivision := by
  norm_num [computeComposite, contribAll, contribStep, dictLookup, dbCE]

/-! ## Claims -/

/-- C1 (counterexample): the all-zero volume-fraction assignment over the
registered names of `dbCE` — a registry whose constituents all have
`E > 0` and `G > 0` — does not make the computation return the record of
§4.3 formulas: the computation raises a `ZeroDivisionError` instead,
because `Σᵢ (Vᵢ/Eᵢ) = 0` and `E2 = 1/Σᵢ (Vᵢ/Eᵢ)` divides by zero.  So
the claim does not hold for every pair of assignments. -/
theorem computeComposite_zero_fractions_no_record :
    computeComposite dbCE [("Carbon", 0)] [("Epoxy", 0)] = .error .zeroDivision ∧
      ∀ r : CompositeMaterial,
        computeComposite dbCE [("Carbon", 0)] [("Epoxy", 0)] ≠ .ok r := by
  refine ⟨zero_fractions_run, ?_⟩
  intro r hr
  rw [zero_fractions_run] at hr
  exact absurd hr (by simp)

/-- C1 (amended): for every registry with pairwise-distinct names whose
selected constituents all have `E > 0` and `G > 0`, and every pair of
fiber/matrix volume-fraction assignments over the registered names for
which the three quantities `Σᵢ (Vᵢ/Eᵢ)`, `Σᵢ (Vᵢ/Gᵢ)` and `Σᵢ (Eᵢ·Vᵢ)`
are nonzero (so no division raises), the computation returns exactly
`E1 = Σᵢ (Eᵢ·Vᵢ)`, `E2 = 1/Σᵢ (Vᵢ/Eᵢ)`, `G12 = 1/Σᵢ (Vᵢ/Gᵢ)`,
`nu12 = Σᵢ (νᵢ·Vᵢ)`, `nu21 = nu12·E2/E1` and `density = Σᵢ (ρᵢ·Vᵢ)`,
with every sum ranging symmetrically over all selected fibers and
matrices (zero-fraction entries included with coefficient 0), iterated
fibers first then matrices, each in registry insertion order. -/
theorem computeComposite_refines_spec_formulas (db : MaterialsDb) (vf_f vf_m : String → ℚ)
    (hfN : keysNodup db.fibers) (hmN : keysNodup db.matrices)
    (hfEG : ∀ e ∈ db.fibers, 0 < e.2.E ∧ 0 < e.2.G)
    (hmEG : ∀ e ∈ db.matrices, 0 < e.2.E ∧ 0 < e.2.G)
    (h2 : specInvE2 (specConstituents db vf_f vf_m) ≠ 0)
    (hG : specInvG12 (specConstituents db vf_f vf_m) ≠ 0)
    (h1 : specE1 (specConstituents db vf_f vf_m) ≠ 0) :
    computeComposite db (selectionsFrom db.fibers vf_f) (selectionsFrom db.matrices vf_m) =
      .ok
        { E1 := specE1 (specConstituents db vf_f vf_m)
          E2 := 1 / specInvE2 (specConstituents db vf_f vf_m)
          G12 := 1 / specInvG12 (specConstituents db vf_f vf_m)
          nu12 := specNu12 (specConstituents db vf_f vf_m)
          nu21 := specNu12 (specConstituents db vf_f vf_m) *
            (1 / specInvE2 (specConstituents db vf_f vf_m)) /
            specE1 (specConstituents db vf_f vf_m)
          density := specDensity (specConstituents db vf_f vf_m)
          fiber_constituents := selectionsFrom db.fibers vf_f
          matrix_constituents := selectionsFrom db.matrices vf_m } := by
  have hf := selectionsFrom_sound db.fibers vf_f hfN hfEG
  have hm := selectionsFrom_sound db.matrices vf_m hmN hmEG
  have hcs := specConstituents_eq_resolve db vf_f vf_m hfN hmN
  rw [hcs] at h2 hG h1 ⊢
  rw [specInvE2_append] at h2
  rw [specInvG12_append] at hG
  rw [specE1_append] at h1
  unfold computeComposite
  simp only [contribAll_ok _ _ _ hf, contribAll_ok _ _ _ hm, zero_add]
  rw [if_neg h2, if_neg hG, if_neg h1]
  simp only [specE1_append, specInvE2_append, specInvG12_append, specNu12_append,
    specDensity_append]

/-- C1 (witness): the amended theorem applied to the §8 scenario inputs. -/
theorem computeComposite_refines_spec_formulas_witness :
    computeComposite dbCE [("Carbon", 3 / 5)] [("Epoxy", 2 / 5)] = .ok carbonEpoxyRecord := by
  have h := computeComposite_refines_spec_formulas dbCE (fun _ => 3 / 5) (fun _ => 2 / 5)
    (by simp [keysNodup, dbCE]) (by simp [keysNodup, dbCE])
    (by norm_num [dbCE])
    (by norm_num [dbCE])
    (by norm_num [specInvE2, specConstituents, dbCE])
    (by norm_num [specInvG12, specConstituents, dbCE])
    (by norm_num [specE1, specConstituents, dbCE])
  norm_num [selectionsFrom, dbCE, specConstituents, specE1, specInvE2, specInvG12,
    specNu12, specDensity, carbonEpoxyRecord] at h ⊢
  exact h

/-- C2 (counterexample): on the §8 scenario inputs the computation does
follow the §4.3 formulas, but three of the claimed approximate values are
wrong even at 2-decimal-place tolerance: the formulas give
`E1 = 0.6·230 + 0.4·3.5 = 139.4`, not `≈ 138.4`; `E2 = 8050/941 ≈ 8.55`,
not `≈ 8.97`; and `G12 = 1950/613 ≈ 3.18`, not `≈ 3.19`. -/
theorem scenario_claimed_values_wrong :
    computeComposite dbCE [("Carbon", 3 / 5)] [("Epoxy", 2 / 5)] = .ok carbonEpoxyRecord ∧
      ¬ |carbonEpoxyRecord.E1 - 1384 / 10| ≤ 1 / 200 ∧
      ¬ |carbonEpoxyRecord.E2 - 897 / 100| ≤ 1 / 200 ∧
      ¬ |carbonEpoxyRecord.G12 - 319 / 100| ≤ 1 / 200 := by
  refine ⟨carbonEpoxy_run, ?_, ?_, ?_⟩ <;> norm_num [carbonEpoxyRecord, abs_le]

/-- C2 (amended): for the §8 scenario inputs the computation returns
exactly the §4.3 formula values — `E1 = 139.40`, `E2 = 8050/941 ≈ 8.55`,
`G12 = 1950/613 ≈ 3.18`, `nu12 = 0.26`, `density = 1.56` (approximations
to 2 decimal places), with `nu21 = nu12·E2/E1`. -/
theorem scenario_exact_values :
    computeComposite dbCE [("Carbon", 3 / 5)] [("Epoxy", 2 / 5)] = .ok carbonEpoxyRecord ∧
      carbonEpoxyRecord.E1 = 1394 / 10 ∧
      |carbonEpoxyRecord.E2 - 855 / 100| ≤ 1 / 200 ∧
      |carbonEpoxyRecord.G12 - 318 / 100| ≤ 1 / 200 ∧
      carbonEpoxyRecord.nu12 = 26 / 100 ∧
      carbonEpoxyRecord.density = 156 / 100 ∧
      carbonEpoxyRecord.E2 = 8050 / 941 ∧
      carbonEpoxyRecord.G12 = 1950 / 613 ∧
      carbonEpoxyRecord.nu21 =
        carbonEpoxyRecord.nu12 * carbonEpoxyRecord.E2 / carbonEpoxyRecord.E1 := by
  refine ⟨carbonEpoxy_run, ?_, ?_, ?_, ?_, ?_, ?_, ?_, ?_⟩ <;>
    norm_num [carbonEpoxyRecord, abs_le]

/-- C3 (counterexample): a total of `1.010005` deviates from `1.0` by
more than `0.01` absolute, yet the sum check accepts it — `np.isclose`
with `atol=0.01` also applies its default relative tolerance
`rtol=1e-5`, so the effective bound is `0.01001`, not `0.01`. -/
theorem sum_tolerance_exceeds_claimed_bound :
    vfError [("f", 1010005 / 1000000)] [] = none ∧
      1 / 100 < |(1010005 : ℚ) / 1000000 - 1| := by
  constructor
  · norm_num [vfError, npIsClose, sumVals, abs_le]
  · norm_num [lt_abs]

/-- C3 (amended): validation fails with the actual total exactly when the
sum of all fractions deviates from `1.0` by more than `0.01 + 1e-5`
(`np.isclose`'s `atol=0.01` plus its default `rtol=1e-5` times `|1.0|`);
the stated boundary examples behave as claimed: totals `0.991` and
`1.009` are accepted, totals `0.98` and `1.02` are rejected with the
total carried in the error. -/
theorem vfError_exact_tolerance (fsels msels : List (String × ℚ)) :
    (vfError fsels msels = none ↔
      |sumVals fsels + sumVals msels - 1| ≤ 1 / 100 + 1 / 100000) ∧
    (∀ t, vfError fsels msels = some t ↔
      t = sumVals fsels + sumVals msels ∧
        1 / 100 + 1 / 100000 < |sumVals fsels + sumVals msels - 1|) ∧
    vfError [("f", 991 / 1000)] [] = none ∧
    vfError [("f", 1009 / 1000)] [] = none ∧
    vfError [("f", 98 / 100)] [] = some (98 / 100) ∧
    vfError [("f", 102 / 100)] [] = some (102 / 100) := by
  refine ⟨vfError_none_iff fsels msels, fun t => vfError_some_iff fsels msels t, ?_, ?_, ?_, ?_⟩ <;>
    norm_num [vfError, npIsClose, sumVals, abs_le]

/-- C4 (counterexample): on an input whose accumulated denominator
`Σᵢ (Vᵢ/Eᵢ)` is `0`, the computation raises a `ZeroDivisionError`
division fault; it does not fail with the typed error `DegenerateInput`
(which the source never produces). -/
theorem zero_denominator_division_fault_not_degenerate :
    computeComposite dbCE [("Carbon", 0)] [("Epoxy", 0)] = .error .zeroDivision ∧
      computeComposite dbCE [("Carbon", 0)] [("Epoxy", 0)] ≠ .error .degenerateInput := by
  refine ⟨zero_fractions_run, ?_⟩
  rw [zero_fractions_run]
  intro hc
  injection hc with hc
  exact absurd hc (by simp)

/-- C4 (witness): the amended theorem applied to the §8 scenario inputs,
which pass validation. -/
theorem validated_compute_ok_witness :
    ∃ r, computeComposite dbCE [("Carbon", 3 / 5)] [("Epoxy", 2 / 5)] = .ok r :=
  validated_compute_ok dbCE [("Carbon", 3 / 5)] [("Epoxy", 2 / 5)]
    (by norm_num [dbCE]) (by norm_num [dbCE])
    (by norm_num [dbCE, dictLookup]) (by norm_num [dbCE, dictLookup])
    (by norm_num) (by norm_num)
    (by norm_num [vfError, npIsClose, sumVals, abs_le])

/-- C5 (counterexample): an assignment naming `"Ghost"`, absent from the
fiber registry, does not fail with a typed `UnknownConstituent`
validation error — the computation raises an uncaught `KeyError` at the
dict lookup (and, as the claim also says, adds nothing to the store). -/
theorem unknown_name_keyError_not_typed :
    calculateClick "X" dbCE [("Ghost", 1)] [("Epoxy", 0)] [] =
      (.fault (.keyError "Ghost"), []) ∧
      Fault.keyError "Ghost" ≠ Fault.unknownConstituent "Ghost" := by
  constructor
  · simp [calculateClick, vfError, npIsClose, sumVals, computeComposite,
      contribAll, contribStep, dictLookup, dbCE, abs_le]
    norm_num
  · intro hc
    injection hc

/-- C5 (amended): for every registry of positive-moduli constituents and
every invocation (sum check passed, non-empty composite name) in which
some assignment name is absent from the corresponding registry mapping,
the computation raises a `KeyError` (not a typed `UnknownConstituent`,
which the source never produces) and the Composite Definitions store is
exactly unchanged.  In the UI flow such a name cannot arise: the
selection lists are built from the registry itself, so every selection
name is present. -/
theorem unknown_name_faults_storing_nothing (name : String) (db : MaterialsDb)
    (fsels msels : List (String × ℚ)) (store : List (String × CompositeMaterial))
    (hfEG : ∀ e ∈ db.fibers, 0 < e.2.E ∧ 0 < e.2.G)
    (hmEG : ∀ e ∈ db.matrices, 0 < e.2.E ∧ 0 < e.2.G)
    (hmiss : (∃ s ∈ fsels, dictLookup s.1 db.fibers = none) ∨
      (∃ s ∈ msels, dictLookup s.1 db.matrices = none))
    (hv : vfError fsels msels = none) (hname : name ≠ "") :
    (∃ m, calculateClick name db fsels msels store = (.fault (.keyError m), store)) ∧
      (∀ reg : List (String × ConstituentProps), ∀ vf : String → ℚ,
        ∀ s ∈ selectionsFrom reg vf, (dictLookup s.1 reg).isSome = true) := by
  constructor
  · have hfne : ∀ e ∈ db.fibers, e.2.E ≠ 0 ∧ e.2.G ≠ 0 := fun e he =>
      ⟨ne_of_gt (hfEG e he).1, ne_of_gt (hfEG e he).2⟩
    have hmne : ∀ e ∈ db.matrices, e.2.E ≠ 0 ∧ e.2.G ≠ 0 := fun e he =>
      ⟨ne_of_gt (hmEG e he).1, ne_of_gt (hmEG e he).2⟩
    have hkey : ∃ m, computeComposite db fsels msels = .error (.keyError m) := by
      unfold computeComposite
      by_cases hall : ∀ s ∈ fsels, (dictLookup s.1 db.fibers).isSome = true
      · have hf := present_sound db.fibers fsels hfEG hall
        rcases hmiss with ⟨s, hs, hnone⟩ | ⟨s, hs, hnone⟩
        · exact absurd (hall s hs) (by rw [hnone]; simp)
        · obtain ⟨m, hm⟩ :=
            contribAll_keyError db.matrices msels _ hmne ⟨s, hs, hnone⟩
          exact ⟨m, by simp only [contribAll_ok _ _ _ hf]; rw [hm]⟩
      · push_neg at hall
        obtain ⟨s, hs, hnot⟩ := hall
        have hnone : dictLookup s.1 db.fibers = none := by
          cases hl : dictLookup s.1 db.fibers with
          | none => rfl
          | some p => rw [hl] at hnot; exact absurd rfl hnot
        obtain ⟨m, hm⟩ :=
          contribAll_keyError db.fibers fsels ⟨0, 0, 0, 0, 0⟩ hfne ⟨s, hs, hnone⟩
        exact ⟨m, by rw [hm]⟩
    obtain ⟨m, hm⟩ := hkey
    refine ⟨m, ?_⟩
    unfold calculateClick
    rw [if_pos ⟨hv, hname⟩, hm]
  · intro reg vf s hs
    rcases List.mem_map.1 hs with ⟨e, he, rfl⟩
    exact dictLookup_isSome_of_mem_keys (List.mem_map_of_mem Prod.fst he)

/-- C5 (witness): the amended theorem applied to a selection naming the
unregistered fiber `"Ghost"`. -/
theorem unknown_name_faults_storing_nothing_witness :
    ∃ m, calculateClick "X" dbCE [("Ghost", 1)] [("Epoxy", 0)] [] =
      (.fault (.keyError m), []) :=
  (unknown_name_faults_storing_nothing "X" dbCE [("Ghost", 1)] [("Epoxy", 0)] []
    (by norm_num [dbCE]) (by norm_num [dbCE])
    (Or.inl ⟨("Ghost", 1), by norm_num, by decide⟩)
    (by norm_num [vfError, npIsClose, sumVals, abs_le]) (by decide)).1

/-- C6 (counterexample): an assignment with individual fractions outside
`[0, 1]` (Carbon at `2.0`, Epoxy at `-1.0`, summing to `1.0`) does not
make validation fail with `FractionOutOfRange` — no range check exists:
the sum check accepts it and the computation runs and stores a record. -/
theorem out_of_range_fractions_accepted_and_stored :
    vfError [("Carbon", 2)] [("Epoxy", -1)] = none ∧
      calculateClick "Wild" dbCE [("Carbon", 2)] [("Epoxy", -1)] [] =
        (.stored, [("Wild",
          { E1 := 913 / 2
            E2 := -805 / 223
            G12 := -585 / 437
            nu12 := 1 / 20
            nu21 := -161 / 407198
            density := 12 / 5
            fiber_constituents := [("Carbon", 2)]
            matrix_constituents := [("Epoxy", -1)] })]) := by
  constructor
  · norm_num [vfError, npIsClose, sumVals, abs_le]
  · simp [calculateClick, vfError, npIsClose, sumVals, computeComposite,
      contribAll, contribStep, dictLookup, dictInsert, dbCE, abs_le]
    norm_num

/-- C6 (amended): individual fractions outside `[0, 1]` are prevented at
entry by the UI (`st.number_input` with `min_value=0.0, max_value=1.0`
clamps every entered value into `[0, 1]`); the validation itself performs
no range check and, as the counterexample shows, accepts an out-of-range
assignment whose sum passes the tolerance check. -/
theorem ui_clamp_bounds_fractions (x : ℚ) :
    0 ≤ numberInputClamp 0 1 x ∧ numberInputClamp 0 1 x ≤ 1 :=
  ⟨le_max_left 0 (min x 1), max_le zero_le_one (min_le_right x 1)⟩

/-- C7: on any input on which validation fails (the sum check reports an
error), the click stores nothing — the Composite Definitions store is
exactly unchanged — and, conversely, the store changes only when the
computation succeeds, in which case the new store is exactly the old one
with the computed record inserted under the composite name. -/
theorem validation_failure_stores_nothing (name : String) (db : MaterialsDb)
    (fsels msels : List (String × ℚ)) (store : List (String × CompositeMaterial)) :
    ((vfError fsels msels).isSome = true →
      calculateClick name db fsels msels store = (.skipped, store)) ∧
    (∀ out store₂, calculateClick name db fsels msels store = (out, store₂) →
      store₂ ≠ store →
      out = .stored ∧ ∃ r, computeComposite db fsels msels = .ok r ∧
        store₂ = dictInsert name r store) := by
  constructor
  · intro hv
    have hne : ¬(vfError fsels msels = none ∧ name ≠ "") := by
      intro hc
      rw [hc.1] at hv
      simp at hv
    unfold calculateClick
    rw [if_neg hne]
  · intro out store₂ heq hnes
    unfold calculateClick at heq
    by_cases hcond : vfError fsels msels = none ∧ name ≠ ""
    · rw [if_pos hcond] at heq
      cases hr : computeComposite db fsels msels with
      | error f =>
        rw [hr] at heq
        injection heq with h₁ h₂
        exact absurd h₂.symm hnes
      | ok r =>
        rw [hr] at heq
        injection heq with h₁ h₂
        exact ⟨h₁.symm, r, rfl, h₂.symm⟩
    · rw [if_neg hcond] at heq
      injection heq with h₁ h₂
      exact absurd h₂.symm hnes

/-- C7 (witness): with a total of `0.98` the sum check fails and a click
leaves the (empty) store unchanged. -/
theorem validation_failure_stores_nothing_witness :
    calculateClick "X" dbCE [("Carbon", 98 / 100)] [] [] = (.skipped, []) :=
  (validation_failure_stores_nothing "X" dbCE [("Carbon", 98 / 100)] [] []).1
    (by norm_num [vfError, npIsClose, sumVals, abs_le])

/-- C8: every successful composite computation satisfies the orthotropic
reciprocity relation `nu21 · E1 = nu12 · E2` exactly (over `ℚ`; the code
only returns a record when `E1 ≠ 0`, since `nu21 = nu12 · E2 / E1` would
otherwise raise). -/
theorem reciprocity_exact (db : MaterialsDb) (fsels msels : List (String × ℚ))
    (r : CompositeMaterial) (h : computeComposite db fsels msels = .ok r) :
    r.nu21 * r.E1 = r.nu12 * r.E2 := by
  unfold computeComposite at h
  cases hf : contribAll db.fibers ⟨0, 0, 0, 0, 0⟩ fsels with
  | error f => rw [hf] at h; exact absurd h (by simp)
  | ok a₁ =>
    rw [hf] at h
    dsimp only at h
    cases hm : contribAll db.matrices a₁ msels with
    | error f => rw [hm] at h; exact absurd h (by simp)
    | ok a =>
      rw [hm] at h
      dsimp only at h
      by_cases h2 : a.E2den = 0
      · rw [if_pos h2] at h; exact absurd h (by simp)
      rw [if_neg h2] at h
      by_cases hg : a.G12den = 0
      · rw [if_pos hg] at h; exact absurd h (by simp)
      rw [if_neg hg] at h
      by_cases h1 : a.E1 = 0
      · rw [if_pos h1] at h; exact absurd h (by simp)
      rw [if_neg h1] at h
      have hrec := Except.ok.inj h
      rw [← hrec]
      show a.nu12 * (1 / a.E2den) / a.E1 * a.E1 = a.nu12 * (1 / a.E2den)
      exact div_mul_cancel₀ _ h1

/-- C8 (witness): reciprocity holds on the §8 scenario result. -/
theorem reciprocity_exact_witness :
    carbonEpoxyRecord.nu21 * carbonEpoxyRecord.E1 =
      carbonEpoxyRecord.nu12 * carbonEpoxyRecord.E2 :=
  reciprocity_exact dbCE [("Carbon", 3 / 5)] [("Epoxy", 2 / 5)] carbonEpoxyRecord
    carbonEpoxy_run

/-- C9: `addFiber` fails (with the empty-name error message) exactly on
the empty name, leaving the database untouched; on a non-empty name it
inserts or overwrites the record under that name in the fiber mapping
(last-write-wins), leaves every other fiber entry and the whole matrix
mapping unchanged, and has no other effect; `addMatrix` satisfies the
identical contract over the matrix mapping. -/
theorem add_constituent_contract (name : String) (p : ConstituentProps) (db : MaterialsDb) :
    (name = "" →
      addFiber name p db = (.emptyNameError, db) ∧
      addMatrix name p db = (.emptyNameError, db)) ∧
    (name ≠ "" →
      (addFiber name p db).1 = .added ∧
      (addFiber name p db).2.matrices = db.matrices ∧
      dictLookup name (addFiber name p db).2.fibers = some p ∧
      (∀ n₂, n₂ ≠ name →
        dictLookup n₂ (addFiber name p db).2.fibers = dictLookup n₂ db.fibers) ∧
      (addMatrix name p db).1 = .added ∧
      (addMatrix name p db).2.fibers = db.fibers ∧
      dictLookup name (addMatrix name p db).2.matrices = some p ∧
      (∀ n₂, n₂ ≠ name →
        dictLookup n₂ (addMatrix name p db).2.matrices = dictLookup n₂ db.matrices)) := by
  constructor
  · intro h
    subst h
    simp [addFiber, addMatrix]
  · intro h
    have hfib : addFiber name p db =
        (.added, { db with fibers := dictInsert name p db.fibers }) := by
      simp only [addFiber, if_pos h]
    have hmat : addMatrix name p db =
        (.added, { db with matrices := dictInsert name p db.matrices }) := by
      simp only [addMatrix, if_pos h]
    rw [hfib, hmat]
    exact ⟨rfl, rfl, dictLookup_dictInsert_self name p db.fibers,
      fun n₂ hn => dictLookup_dictInsert_ne p db.fibers hn, rfl, rfl,
      dictLookup_dictInsert_self name p db.matrices,
      fun n₂ hn => dictLookup_dictInsert_ne p db.matrices hn⟩

/-- C9 (witness): the contract applied to the empty name and to a fresh
fiber name over the scenario database. -/
theorem add_constituent_contract_witness :
    addFiber "" ⟨70, 11 / 50, 30, 5 / 2⟩ dbCE = (.emptyNameError, dbCE) ∧
      dictLookup "Glass" (addFiber "Glass" ⟨70, 11 / 50, 30, 5 / 2⟩ dbCE).2.fibers =
        some ⟨70, 11 / 50, 30, 5 / 2⟩ :=
  ⟨((add_constituent_contract "" ⟨70, 11 / 50, 30, 5 / 2⟩ dbCE).1 rfl).1,
    ((add_constituent_contract "Glass" ⟨70, 11 / 50, 30, 5 / 2⟩ dbCE).2 (by decide)).2.2.1⟩

/-- C10: a click of "Calculate Composite Properties" with an empty
composite name is silently skipped — the click reports nothing and the
Composite Definitions store is exactly unchanged — in contrast to the
empty-constituent-name case, where the add handlers report an explicit
error. -/
theorem empty_composite_name_silent_skip (db : MaterialsDb) (fsels msels : List (String × ℚ))
    (store : List (String × CompositeMaterial)) (p : ConstituentProps) (db₂ : MaterialsDb) :
    calculateClick "" db fsels msels store = (.skipped, store) ∧
      addFiber "" p db₂ = (.emptyNameError, db₂) ∧
      addMatrix "" p db₂ = (.emptyNameError, db₂) := by
  refine ⟨?_, by simp [addFiber], by simp [addMatrix]⟩
  unfold calculateClick
  rw [if_neg (fun hc => hc.2 rfl)]

/-- C3 (witness): the characterization applied to the boundary total
`0.991`. -/
theorem vfError_exact_tolerance_witness :
    vfError [("f", 991 / 1000)] [] = none :=
  (vfError_exact_tolerance [("f", 991 / 1000)] []).2.2.1

/-- C6 (witness): the clamp applied to the out-of-range entry `2.5`. -/
theorem ui_clamp_bounds_fractions_witness :
    0 ≤ numberInputClamp 0 1 (5 / 2) ∧ numberInputClamp 0 1 (5 / 2) ≤ 1 :=
  ui_clamp_bounds_fractions (5 / 2)

/-- C10 (witness): the silent skip applied to the §8 scenario state. -/
theorem empty_composite_name_silent_skip_witness :
    calculateClick "" dbCE [("Carbon", 3 / 5)] [("Epoxy", 2 / 5)] [] = (.skipped, []) ∧
      addFiber "" ⟨230, 1 / 5, 90, 9 / 5⟩ dbCE = (.emptyNameError, dbCE) ∧
      addMatrix "" ⟨230, 1 / 5, 90, 9 / 5⟩ dbCE = (.emptyNameError, dbCE) :=
  empty_composite_name_silent_skip dbCE [("Carbon", 3 / 5)] [("Epoxy", 2 / 5)] []
    ⟨230, 1 / 5, 90, 9 / 5⟩ dbCE

end CompositeApp
